import Mathlib

/-!
Verification of the `rust-streaming-quotes` repository: a market-data
streaming service (quote-core, quote-server, quote-client crates).

This file shallowly embeds the parts of the code relevant to the verified
claims and proves theorems about them:

* the control-protocol parser `parse_command` (quote-core/src/protocol.rs),
* ticker normalization `parse_tickers_csv` (quote-core/src/tickers.rs),
* the versioned UDP wire codec `encode_v1` / `decode` (quote-core/src/wire.rs),
  with the external `postcard` payload codec modelled at byte level,
* the per-client session loop `run_session`, `handle_quote`, `ping_expired`
  (quote-server/src/session.rs),
* the fan-out `Hub` (quote-server/src/hub.rs).

Modelling conventions:

* Rust `&str` / `String` values are embedded as `List Char` (`RStr`); Lean
  string literals are converted with `str`.  All string operations are
  re-implemented structurally so that every definition evaluates by `decide`.
  Rust's `BTreeSet<String>` iteration order (byte-lexicographic on UTF-8)
  coincides with lexicographic order on code points, which is the
  `List Char` linear order used here.
* `Instant` values and durations are milliseconds as `Nat`.
* Machine integers are `Nat` / `Int` with explicit range hypotheses where a
  claim quantifies over the values of a Rust integer type.
* Fallible Rust functions return `Except` / `Option`.
-/

deriving instance DecidableEq for Except

namespace StreamingQuotes

/-- Rust strings are embedded as their list of characters. -/
abbrev RStr := List Char

/-- Convert a Lean string literal to its embedded form. -/
def str (s : String) : RStr := s.data

/-- Embedding of `char::is_whitespace` (restricted to the ASCII whitespace
characters that occur in this protocol). -/
def isWs (c : Char) : Bool := c.isWhitespace

/-- Drop leading whitespace, as in `str::trim_start`. -/
def trimLeft : RStr → RStr
  | [] => []
  | c :: cs => if isWs c then trimLeft cs else c :: cs

/-- Drop trailing whitespace, as in `str::trim_end`. -/
def trimRight (s : RStr) : RStr := (trimLeft s.reverse).reverse

/-- Embedding of `str::trim`: drop leading and trailing whitespace. -/
def trim (s : RStr) : RStr := trimLeft (trimRight s)

/-- Split a string at every character satisfying `p`, keeping empty pieces,
as Rust's `str::split` does. -/
def splitOnPred (p : Char → Bool) (s : RStr) : List RStr :=
  s.foldr
    (fun c acc =>
      match acc with
      | cur :: rest => if p c then [] :: cur :: rest else (c :: cur) :: rest
      | [] => [[c]])
    [[]]

/-- Embedding of `str::split(sep)` for a single separator character. -/
def splitOnChar (sep : Char) (s : RStr) : List RStr :=
  splitOnPred (fun c => c = sep) s

/-- Embedding of `str::split_whitespace`: split at whitespace runs, no empty
pieces. -/
def splitWhitespace (s : RStr) : List RStr :=
  (splitOnPred isWs s).filter (fun t => t ≠ [])

/-- Embedding of `Vec::join(" ")`: join pieces with a single space. -/
def joinSpace : List RStr → RStr
  | [] => []
  | [x] => x
  | x :: xs => x ++ ' ' :: joinSpace xs

/-- Embedding of `str::strip_prefix`: remove a literal leading pattern, or
fail. -/
def stripLit : RStr → RStr → Option RStr
  | [], s => some s
  | _ :: _, [] => none
  | p :: ps, c :: cs => if p = c then stripLit ps cs else none

/-- Embedding of `char::to_ascii_uppercase`. -/
def asciiUpper (c : Char) : Char :=
  if 97 ≤ c.toNat ∧ c.toNat ≤ 122 then Char.ofNat (c.toNat - 32) else c

/-- Embedding of `str::to_ascii_uppercase`. -/
def toAsciiUpper (s : RStr) : RStr := s.map asciiUpper

/-- Insert a string into a sorted duplicate-free list, keeping it sorted and
duplicate-free.  This is the effect of `BTreeSet::insert` on the sorted
iteration sequence of the set. -/
def insertSorted (x : RStr) : List RStr → List RStr
  | [] => [x]
  | y :: ys =>
    if x < y then x :: y :: ys
    else if x = y then y :: ys
    else y :: insertSorted x ys

/-- Collect a list of strings into sorted, duplicate-free form; the result of
draining a `BTreeSet<String>` built by inserting every element. -/
def sortDedup (l : List RStr) : List RStr := l.foldr insertSorted []

/-- Embedding of `parse_tickers_csv` (quote-core/src/tickers.rs): split on
commas, trim each item, drop empties, uppercase ASCII, and collect through a
`BTreeSet` (sorted, de-duplicated). -/
def parse_tickers_csv (raw : RStr) : List RStr :=
  sortDedup
    ((splitOnChar ',' raw).filterMap fun part =>
      let t := trim part
      if t = [] then none else some (toAsciiUpper t))

/-! Control protocol (quote-core/src/protocol.rs). -/

/-- Embedding of `std::net::SocketAddr` values: an IP (list of numeric
components) together with a port. -/
structure SocketAddr where
  ip : List Nat
  port : Nat
deriving DecidableEq

/-- Embedding of `ProtocolError` (quote-core/src/error.rs). -/
inductive ProtocolError where
  | EmptyCommand
  | MissingCommand
  | UnknownCommand (s : RStr)
  | MissingUdpTarget
  | BadUdpScheme
  | InvalidUdpAddress (s : RStr)
  | MissingTickers
  | EmptyTickers
  | ExtraArgs
deriving DecidableEq

/-- Embedding of `Command` (quote-core/src/protocol.rs). -/
inductive Command where
  | Stream (udp_target : SocketAddr) (tickers : List RStr)
deriving DecidableEq

/-- Parse one decimal number of at most `maxLen` digits.  Models the digit
handling of Rust's integer `FromStr`. -/
def parseDecimal (s : RStr) : Option Nat :=
  if s = [] then none
  else if s.all Char.isDigit then
    some (s.foldl (fun acc c => acc * 10 + (c.toNat - 48)) 0)
  else none

/-- Parse one IPv4 octet: decimal, at most 3 digits, no leading zeros, value
at most 255.  Models `Ipv4Addr` component parsing in Rust std. -/
def parseOctet (s : RStr) : Option Nat :=
  match s with
  | [] => none
  | c :: cs =>
    if c = '0' ∧ cs ≠ [] then none
    else
      match parseDecimal (c :: cs) with
      | some n => if n ≤ 255 ∧ s.length ≤ 3 then some n else none
      | none => none

/-- Model of Rust std's `SocketAddr::from_str`, restricted to the IPv4
dotted-quad form `a.b.c.d:port` (the only form exercised by the concrete
inputs in this development; the real parser also accepts IPv6 forms, which
the theorems below keep abstract by quantifying over the address parser). -/
def parseSocketAddrV4 (s : RStr) : Option SocketAddr :=
  match splitOnChar ':' s with
  | [ipPart, portPart] =>
    match (splitOnChar '.' ipPart).mapM parseOctet with
    | some [a, b, c, d] =>
      match parseDecimal portPart with
      | some p => if p ≤ 65535 then some ⟨[a, b, c, d], p⟩ else none
      | none => none
    | _ => none
  | _ => none

/-- Embedding of `parse_command` (quote-core/src/protocol.rs), parameterized
by the socket-address parser `addrParse` standing for Rust std's
`str::parse::<SocketAddr>`.  The branch structure and, in particular, the
order of the error checks follow the source: trim/empty, verb, presence of
the second token, `MissingTickers` on an empty joined remainder, then the
`udp://` scheme check, then address parsing, then `EmptyTickers`. -/
def parse_command (addrParse : RStr → Option SocketAddr) (line : RStr) :
    Except ProtocolError Command :=
  let line := trim line
  if line = [] then .error .EmptyCommand
  else
    match splitWhitespace line with
    | [] => .error .MissingCommand
    | cmd :: parts =>
      if cmd = str "STREAM" then
        match parts with
        | [] => .error .MissingUdpTarget
        | udp_uri :: rest =>
          let tickers_raw := joinSpace rest
          if trim tickers_raw = [] then .error .MissingTickers
          else
            match stripLit (str "udp://") udp_uri with
            | none => .error .BadUdpScheme
            | some addr_str =>
              match addrParse addr_str with
              | none => .error (.InvalidUdpAddress addr_str)
              | some udp_target =>
                let tickers := parse_tickers_csv tickers_raw
                if tickers = [] then .error .EmptyTickers
                else .ok (.Stream udp_target tickers)
      else .error (.UnknownCommand cmd)

/-! Wire codec (quote-core/src/wire.rs).  The payload serializer is the
external `postcard` crate; its documented wire format for this packet type
is modelled at byte level: unsigned integers are LEB128 varints, signed
integers are zigzag-encoded varints, strings are a varint byte length
followed by the raw bytes, and an enum is the varint variant index followed
by the variant's fields.  Bytes are `Nat` values below 256. -/

/-- LEB128 varint encoder, fuelled so that it evaluates structurally; the
fuel is always sufficient at `n + 1`. -/
def varintEncAux : Nat → Nat → List Nat
  | _, 0 => []
  | n, fuel + 1 => if n < 128 then [n] else (n % 128 + 128) :: varintEncAux (n / 128) fuel

/-- LEB128 varint encoding of an unsigned integer, least-significant group
first, as `postcard` emits it. -/
def varintEnc (n : Nat) : List Nat := varintEncAux n (n + 1)

/-- LEB128 varint decoder: returns the value and the remaining bytes. -/
def varintDec : List Nat → Option (Nat × List Nat)
  | [] => none
  | b :: rest =>
    if b < 128 then some (b, rest)
    else
      match varintDec rest with
      | some (n, r2) => some (b - 128 + 128 * n, r2)
      | none => none

/-- Zigzag encoding of a signed integer, as `postcard` applies to `i64`
before varint encoding. -/
def zigzagEnc (i : Int) : Nat :=
  if 0 ≤ i then (2 * i).toNat else (-(2 * i) - 1).toNat

/-- Zigzag decoding back to a signed integer. -/
def zigzagDec (n : Nat) : Int :=
  if n % 2 = 0 then (n / 2 : Nat) else -(((n : Int) + 1) / 2)

/-- Embedding of `StockQuote` (quote-core/src/types.rs) as constructed and
consumed everywhere in the repository: the generator stores `price` as
`i64` hundredths and fills `timestamp_ms` from `as_millis()` (`u128`), and
the unit tests and doc examples build quotes with integer prices.  (The
struct declaration in types.rs itself writes `price: f64` and
`timestamp_ms: u64`, which contradicts those use sites; see the claim about
the quote record.)  The ticker carries its UTF-8 bytes. -/
structure StockQuote where
  ticker : List Nat
  price : Int
  volume : Nat
  timestamp_ms : Nat
deriving DecidableEq

/-- Embedding of `UdpPacketV1` (quote-core/src/wire.rs). -/
inductive UdpPacketV1 where
  | Quote (q : StockQuote)
  | Ping
deriving DecidableEq

/-- Embedding of `WireError` (quote-core/src/error.rs); the `postcard`
error payload is collapsed to one constructor. -/
inductive WireError where
  | PacketTooShort
  | UnsupportedWireVersion (v : Nat)
  | Postcard
deriving DecidableEq

/-- Wire protocol version byte (quote-core/src/wire.rs). -/
def WIRE_VERSION : Nat := 1

/-- Postcard serialization of a `StockQuote`: fields in declaration order. -/
def encodeQuote (q : StockQuote) : List Nat :=
  varintEnc q.ticker.length ++ q.ticker ++
    varintEnc (zigzagEnc q.price) ++ varintEnc q.volume ++ varintEnc q.timestamp_ms

/-- Postcard serialization of a `UdpPacketV1`: varint variant index
(`Quote` is variant 0, `Ping` variant 1), then the variant's fields. -/
def encodePacket : UdpPacketV1 → List Nat
  | .Quote q => varintEnc 0 ++ encodeQuote q
  | .Ping => varintEnc 1

/-- Split `n` leading bytes off a buffer, or fail. -/
def takeBytes (n : Nat) (l : List Nat) : Option (List Nat × List Nat) :=
  if n ≤ l.length then some (l.take n, l.drop n) else none

/-- Postcard deserialization of a `StockQuote`. -/
def decodeQuote (l : List Nat) : Option (StockQuote × List Nat) :=
  match varintDec l with
  | none => none
  | some (len, r1) =>
    match takeBytes len r1 with
    | none => none
    | some (tk, r2) =>
      match varintDec r2 with
      | none => none
      | some (zp, r3) =>
        match varintDec r3 with
        | none => none
        | some (vol, r4) =>
          match varintDec r4 with
          | none => none
          | some (ts, r5) => some (⟨tk, zigzagDec zp, vol, ts⟩, r5)

/-- Postcard deserialization of a `UdpPacketV1`. -/
def decodePacket (l : List Nat) : Option (UdpPacketV1 × List Nat) :=
  match varintDec l with
  | none => none
  | some (tag, r1) =>
    if tag = 0 then
      match decodeQuote r1 with
      | some (q, r) => some (.Quote q, r)
      | none => none
    else if tag = 1 then some (.Ping, r1)
    else none

/-- Embedding of `encode_v1` (quote-core/src/wire.rs): version byte, then the
postcard payload.  The Rust function returns `Result` but its only failure
source is `postcard::to_allocvec`, which cannot fail for this type, so the
embedding is total. -/
def encode_v1 (pkt : UdpPacketV1) : List Nat :=
  WIRE_VERSION :: encodePacket pkt

/-- Embedding of `decode` (quote-core/src/wire.rs): `split_first` with
`PacketTooShort` on the empty buffer, version check, then the postcard
payload decode. -/
def decode (buf : List Nat) : Except WireError UdpPacketV1 :=
  match buf with
  | [] => .error .PacketTooShort
  | ver :: payload =>
    if ver ≠ WIRE_VERSION then .error (.UnsupportedWireVersion ver)
    else
      match decodePacket payload with
      | some (pkt, _) => .ok pkt
      | none => .error .Postcard

/-- Well-formedness of a packet's field values: every field holds a value of
its Rust machine type (`i64` price, `u32` volume, `u128` timestamp, byte
string ticker). -/
def wfPacket : UdpPacketV1 → Prop
  | .Ping => True
  | .Quote q =>
    (∀ b ∈ q.ticker, b < 256) ∧
      -(2 ^ 63 : Int) ≤ q.price ∧ q.price < 2 ^ 63 ∧
      q.volume < 2 ^ 32 ∧ q.timestamp_ms < 2 ^ 128

/-! Declared versus required field types of the quote record.  The claim
about the `StockQuote` data model concerns the Rust types of its fields,
so those types are reflected as data. -/

/-- Rust scalar types appearing in the quote record discussion. -/
inductive RustTy where
  | tyString
  | tyF64
  | tyI64
  | tyU32
  | tyU64
  | tyU128
deriving DecidableEq

/-- Field types of `StockQuote` exactly as declared in
quote-core/src/types.rs (`pub price: f64`, `pub volume: u32`,
`pub timestamp_ms: u64`). -/
def stockQuoteDeclaredFields : List (String × RustTy) :=
  [("ticker", .tyString), ("price", .tyF64), ("volume", .tyU32), ("timestamp_ms", .tyU64)]

/-- Field types that `QuoteGenerator::next_quote`
(quote-server/src/generator.rs) requires when it builds a `StockQuote`:
`price: st.price` where `TickerState.price : i64`, `volume` from integer
ranges, and `timestamp_ms` from `Duration::as_millis()`, which returns
`u128`.  The integer price literals in the crate's own unit tests and doc
examples (`price: 123_4500`) also require an integer type. -/
def stockQuoteGeneratorFields : List (String × RustTy) :=
  [("ticker", .tyString), ("price", .tyI64), ("volume", .tyU32), ("timestamp_ms", .tyU128)]

/-! Session (quote-server/src/session.rs).  Instants are milliseconds as
`Nat`; the liveness map is an association list keyed by the UDP target
address.  The map is held fixed during a modelled run (no concurrent
ping-tracker writes), matching the scenarios the claims describe. -/

/-- Keep-alive timeout, `PING_TIMEOUT = 5 s` (quote-core/src/constants.rs),
in milliseconds. -/
def PING_TIMEOUT : Nat := 5000

/-- Back-to-back send error limit (quote-server/src/session.rs). -/
def BACK_TO_BACK_SEND_ERR_LIMIT : Nat := 20

/-- The liveness map `LastPingMap` (quote-server/src/udp_ping.rs): UDP
source address to last-ping instant. -/
abbrev LastPingMap := List (SocketAddr × Nat)

/-- Lookup of `map.get(&target).copied()` on the liveness map. -/
def lookupPing (m : LastPingMap) (target : SocketAddr) : Option Nat :=
  match m with
  | [] => none
  | (a, t) :: rest => if a = target then some t else lookupPing rest target

/-- Effect of `map.remove(&target)` on the liveness map. -/
def removePing (m : LastPingMap) (target : SocketAddr) : LastPingMap :=
  m.filter fun p => p.1 ≠ target

/-- Embedding of `ping_expired` (quote-server/src/session.rs): the age is
the elapsed time of the target's liveness entry if one exists, otherwise
the elapsed time since session start; expired when the age exceeds
`PING_TIMEOUT`. -/
def ping_expired (last_ping : LastPingMap) (target : SocketAddr)
    (session_start now : Nat) : Bool :=
  let age :=
    match lookupPing last_ping target with
    | some t => now - t
    | none => now - session_start
  decide (PING_TIMEOUT < age)

/-- The formula the claim states for `ping_expired`: the age is measured
from the later of the liveness entry and the session start. -/
def ping_expired_claimed (last_ping : LastPingMap) (target : SocketAddr)
    (session_start now : Nat) : Bool :=
  let base :=
    match lookupPing last_ping target with
    | some t => max t session_start
    | none => session_start
  decide (PING_TIMEOUT < now - base)

/-- Embedding of `handle_quote` (quote-server/src/session.rs).  The outcome
of the UDP `send_to` is an oracle input `sendOk`; the result is the new
back-to-back error counter, or the propagated send error once the counter
reaches the limit. -/
def handle_quote (tickers_fltr : List (List Nat)) (q : StockQuote)
    (sendOk : Bool) (err_count : Nat) : Except Unit Nat :=
  if q.ticker ∈ tickers_fltr then
    if sendOk then .ok 0
    else
      let c := err_count + 1
      if BACK_TO_BACK_SEND_ERR_LIMIT ≤ c then .error () else .ok c
  else .ok err_count

/-- Process a batch of quotes drained from the session's queue (the
`rx.try_iter()` loop), threading the error counter and stopping at the
first propagated error. -/
def processQuotes (tickers_fltr : List (List Nat)) :
    List (StockQuote × Bool) → Nat → Except Unit Nat
  | [], c => .ok c
  | (q, sendOk) :: rest, c =>
    match handle_quote tickers_fltr q sendOk c with
    | .ok c2 => processQuotes tickers_fltr rest c2
    | .error e => .error e

/-- Outcome of one `rx.recv_timeout(UDP_SOCKET_TICK)` call, with the send
oracle for a received quote. -/
inductive RecvOutcome where
  | ok (q : StockQuote) (sendOk : Bool)
  | timeout
  | disconnected
deriving DecidableEq

/-- External observations of one iteration of the session loop: the
shutdown flag, the current instant at the liveness check, the quotes
drained without blocking, and the blocking receive outcome. -/
structure IterInput where
  shutdown : Bool
  now : Nat
  drained : List (StockQuote × Bool)
  recv : RecvOutcome
deriving DecidableEq

/-- Result of a modelled `run_session` call: `ok` carries the liveness map
after the cleanup at the end of the function, `err` carries the liveness
map at the moment the send error propagates out through `?`. -/
inductive SessionResult where
  | ok (m : LastPingMap)
  | err (m : LastPingMap)
deriving DecidableEq

/-- Embedding of the loop of `run_session` (quote-server/src/session.rs),
iteration by iteration over the inputs: check the shutdown flag, check
`ping_expired`, drain the queue (each quote through `handle_quote?`), then
block for one more quote; `break` paths fall through to
`map.remove(&udp_target)`, while a `handle_quote` error propagates out
immediately.  `none` means the supplied inputs were exhausted with the loop
still running. -/
def run_session_loop (target : SocketAddr) (tickers : List (List Nat))
    (session_start : Nat) (m : LastPingMap) :
    Nat → List IterInput → Option SessionResult
  | _, [] => none
  | err_count, inp :: rest =>
    if inp.shutdown then some (.ok (removePing m target))
    else if ping_expired m target session_start inp.now then
      some (.ok (removePing m target))
    else
      match processQuotes tickers inp.drained err_count with
      | .error _ => some (.err m)
      | .ok c1 =>
        match inp.recv with
        | .ok q sendOk =>
          match handle_quote tickers q sendOk c1 with
          | .error _ => some (.err m)
          | .ok c2 => run_session_loop target tickers session_start m c2 rest
        | .timeout => run_session_loop target tickers session_start m c1 rest
        | .disconnected => some (.ok (removePing m target))

/-- Embedding of `run_session`: the error counter starts at zero. -/
def run_session (target : SocketAddr) (tickers : List (List Nat))
    (session_start : Nat) (m : LastPingMap) (inputs : List IterInput) :
    Option SessionResult :=
  run_session_loop target tickers session_start m 0 inputs

/-! Hub (quote-server/src/hub.rs).  A client's crossbeam channel is
modelled by its queue length and whether the receiver is still alive;
`try_send` on a bounded channel fails with `Disconnected` when the receiver
was dropped and with `Full` when the queue is at capacity. -/

/-- State of one client's bounded outbound channel. -/
structure ChanState where
  queued : Nat
  connected : Bool
deriving DecidableEq

/-- Result of `crossbeam_channel::Sender::try_send`. -/
inductive TrySendResult where
  | ok
  | full
  | disconnected
deriving DecidableEq

/-- Model of `try_send` on a bounded channel of capacity `cap`. -/
def trySend (cap : Nat) (ch : ChanState) : TrySendResult × ChanState :=
  if ch.connected = false then (.disconnected, ch)
  else if cap ≤ ch.queued then (.full, ch)
  else (.ok, { ch with queued := ch.queued + 1 })

/-- Embedding of `BroadcastStats` (quote-server/src/hub.rs). -/
structure BroadcastStats where
  sent : Nat
  dropped_full : Nat
  dropped_dead : Nat
deriving DecidableEq

/-- Embedding of the `Hub` registry: `ClientId` (`u64`) to channel state,
plus the per-client queue capacity (256 in `Hub::new`). -/
structure Hub where
  clients : List (Nat × ChanState)
  capacity_per_client : Nat
deriving DecidableEq

/-- Embedding of `Hub::remove_client`: report whether the client was
present and drop its registration. -/
def Hub.remove_client (h : Hub) (cid : Nat) : Bool × Hub :=
  (h.clients.any fun p => p.1 = cid,
    { h with clients := h.clients.filter fun p => p.1 ≠ cid })

/-- The fan-out pass of `Hub::broadcast` over the registry snapshot:
returns sent and dropped-full counts, the disconnected client ids in
snapshot order, and the updated channel states. -/
def sendAll (cap : Nat) : List (Nat × ChanState) →
    Nat × Nat × List Nat × List (Nat × ChanState)
  | [] => (0, 0, [], [])
  | (cid, ch) :: rest =>
    let (r, ch2) := trySend cap ch
    let (s, f, dead, cs) := sendAll cap rest
    match r with
    | .ok => (s + 1, f, dead, (cid, ch2) :: cs)
    | .full => (s, f + 1, dead, (cid, ch2) :: cs)
    | .disconnected => (s, f, cid :: dead, (cid, ch2) :: cs)

/-- Embedding of `Hub::broadcast`: snapshot the registry, try-send to every
snapshot client without blocking, then evict every disconnected client;
`dropped_dead` is the number of disconnected clients observed.  The quote
value itself does not influence delivery outcomes. -/
def Hub.broadcast (h : Hub) (q : StockQuote) : BroadcastStats × Hub :=
  let (s, f, dead, cs) := sendAll h.capacity_per_client h.clients
  (⟨s, f, dead.length⟩,
    { h with clients := cs.filter fun p => p.1 ∉ dead })

/-! Helper lemmas for the wire codec. -/

theorem varintDec_encAux (fuel : Nat) :
    ∀ (n : Nat) (tail : List Nat), n < fuel →
      varintDec (varintEncAux n fuel ++ tail) = some (n, tail) := by
  induction fuel with
  | zero => intro n tail h; omega
  | succ fuel ih =>
    intro n tail h
    by_cases h128 : n < 128
    · simp [varintEncAux, h128, varintDec]
    · have hdiv : n / 128 < fuel := by
        have h1 : n / 128 < n := Nat.div_lt_self (by omega) (by omega)
        omega
      simp only [varintEncAux, if_neg h128, List.cons_append, varintDec]
      rw [if_neg (by omega), ih (n / 128) tail hdiv]
      have heq : n % 128 + 128 - 128 + 128 * (n / 128) = n := by omega
      simp only [Option.some.injEq, Prod.mk.injEq]
      exact ⟨heq, trivial⟩

theorem varint_roundtrip (n : Nat) (tail : List Nat) :
    varintDec (varintEnc n ++ tail) = some (n, tail) :=
  varintDec_encAux (n + 1) n tail (Nat.lt_succ_self n)

theorem zigzag_roundtrip (i : Int) : zigzagDec (zigzagEnc i) = i := by
  unfold zigzagEnc zigzagDec
  by_cases h : 0 ≤ i
  · rw [if_pos h, if_pos (by omega)]
    omega
  · rw [if_neg h, if_neg (by omega)]
    omega

theorem takeBytes_roundtrip (l tail : List Nat) :
    takeBytes l.length (l ++ tail) = some (l, tail) := by
  simp [takeBytes, List.take_left, List.drop_left]

theorem decodeQuote_roundtrip (q : StockQuote) (tail : List Nat) :
    decodeQuote (encodeQuote q ++ tail) = some (q, tail) := by
  simp only [encodeQuote, List.append_assoc, decodeQuote, varint_roundtrip,
    takeBytes_roundtrip, zigzag_roundtrip]

theorem decodePacket_roundtrip (p : UdpPacketV1) :
    decodePacket (encodePacket p) = some (p, []) := by
  cases p with
  | Quote q =>
    have h : encodePacket (.Quote q) = varintEnc 0 ++ (encodeQuote q ++ []) := by
      simp [encodePacket]
    rw [h]
    simp only [decodePacket, varint_roundtrip, decodeQuote_roundtrip]
    simp
  | Ping => simp [encodePacket, varintEnc, varintEncAux, decodePacket, varintDec]

/-- Claim C5: for every `UdpPacket p` (Ping, or Quote with any field values
of the Rust types), encoding with `encode_v1` and decoding with `decode`
returns a packet equal to `p`.  (`encode_v1` always succeeds: its only
failure source is the payload serializer, which cannot fail for this
type.) -/
theorem wire_roundtrip (p : UdpPacketV1) (hwf : wfPacket p) :
    decode (encode_v1 p) = .ok p := by
  have h := decodePacket_roundtrip p
  simp [encode_v1, decode, WIRE_VERSION, h]

/-- Witness for C5: the round trip evaluated at the concrete quote from the
repository's own tests (`AAPL`, price 1234500, volume 1500, timestamp
1700000000000). -/
theorem wire_roundtrip_witness :
    wfPacket (.Quote ⟨[65, 65, 80, 76], 1234500, 1500, 1700000000000⟩) ∧
      decode (encode_v1 (.Quote ⟨[65, 65, 80, 76], 1234500, 1500, 1700000000000⟩)) =
        .ok (.Quote ⟨[65, 65, 80, 76], 1234500, 1500, 1700000000000⟩) :=
  ⟨by constructor
      · intro b hb; fin_cases hb <;> decide
      · refine ⟨by decide, by decide, by decide, by decide⟩,
    wire_roundtrip _ (by
      constructor
      · intro b hb; fin_cases hb <;> decide
      · refine ⟨by decide, by decide, by decide, by decide⟩)⟩

/-- Claim C6: `decode` fails with `PacketTooShort` exactly on the empty
buffer, and with `UnsupportedWireVersion v` on every non-empty buffer whose
first byte `v` differs from the wire version 1 — in particular on any
encoded packet whose version byte was altered. -/
theorem decode_version_errors :
    (∀ buf : List Nat, decode buf = .error .PacketTooShort ↔ buf = []) ∧
      ∀ (v : Nat) (rest : List Nat), v ≠ WIRE_VERSION →
        decode (v :: rest) = .error (.UnsupportedWireVersion v) := by
  constructor
  · intro buf
    cases buf with
    | nil => simp [decode]
    | cons v payload =>
      simp only [decode]
      constructor
      · intro h
        by_cases hv : v ≠ WIRE_VERSION
        · rw [if_pos hv] at h; exact absurd h (by simp)
        · rw [if_neg hv] at h
          rcases hd : decodePacket payload with _ | ⟨p, r⟩ <;> rw [hd] at h <;>
            exact absurd h (by simp)
      · intro h; exact absurd h (by simp)
  · intro v rest hv
    simp [decode, hv]

/-- Witness for C6: the empty buffer, and the repository test's altered
packet `encode_v1(Ping)` with its version byte flipped to 2. -/
theorem decode_version_errors_witness :
    decode [] = .error .PacketTooShort ∧
      decode [2, 1] = .error (.UnsupportedWireVersion 2) :=
  ⟨(decode_version_errors.1 []).2 rfl, decode_version_errors.2 2 [1] (by decide)⟩

/-! Helper lemma for the hub. -/

theorem sendAll_counts (cap : Nat) :
    ∀ (l : List (Nat × ChanState)) (s f : Nat) (dead : List Nat)
      (cs : List (Nat × ChanState)),
      sendAll cap l = (s, f, dead, cs) → s + f + dead.length = l.length := by
  intro l
  induction l with
  | nil =>
    intro s f dead cs h
    simp [sendAll] at h
    obtain ⟨h1, h2, h3, h4⟩ := h
    subst h3
    simp
    omega
  | cons p rest ih =>
    intro s f dead cs h
    obtain ⟨cid, ch⟩ := p
    simp only [sendAll] at h
    rcases hsend : trySend cap ch with ⟨r, ch2⟩
    rcases hrest : sendAll cap rest with ⟨s', f', dead', cs'⟩
    rw [hsend, hrest] at h
    have hlen := ih s' f' dead' cs' hrest
    cases r <;> simp at h <;>
      · obtain ⟨h1, h2, h3, h4⟩ := h
        subst h1; subst h2; subst h3
        simp [List.length_cons]
        omega

/-- Claim C10: every `Hub.broadcast` call partitions the registry snapshot:
`sent + dropped_full + dropped_dead` equals the number of clients
registered at the moment the snapshot was taken. -/
theorem broadcast_partitions_snapshot (h : Hub) (q : StockQuote) :
    (h.broadcast q).1.sent + (h.broadcast q).1.dropped_full +
        (h.broadcast q).1.dropped_dead = h.clients.length := by
  rcases he : sendAll h.capacity_per_client h.clients with ⟨s, f, dead, cs⟩
  simp [Hub.broadcast, he]
  exact sendAll_counts h.capacity_per_client h.clients s f dead cs he

/-- Counterexample for C8: in a Hub where client 1 is registered with its
receiver dropped but another live client 2 is also registered, the next
broadcast delivers to client 2, so its stats are not `sent = 0` as the
claim states for every such Hub. -/
theorem broadcast_dead_client_counterexample :
    (Hub.broadcast ⟨[(1, ⟨0, false⟩), (2, ⟨0, true⟩)], 256⟩ ⟨[65], 1, 1, 1⟩).1.sent ≠ 0 ∧
      (Hub.broadcast ⟨[(1, ⟨0, false⟩), (2, ⟨0, true⟩)], 256⟩ ⟨[65], 1, 1, 1⟩).1 =
        ⟨1, 0, 1⟩ := by
  constructor <;> decide

/-- Claim C8, amended to the Hub of the spec scenario S5, whose registry
consists of exactly the one client whose receiver was dropped: the next
broadcast returns `sent = 0, dropped_full = 0, dropped_dead = 1` and
empties the registry, a second broadcast returns all-zero stats, and
`remove_client` on that client then returns false. -/
theorem broadcast_dead_client_evicts (cid qd cap : Nat) (q q' : StockQuote) :
    (Hub.broadcast ⟨[(cid, ⟨qd, false⟩)], cap⟩ q).1 = ⟨0, 0, 1⟩ ∧
      (Hub.broadcast ⟨[(cid, ⟨qd, false⟩)], cap⟩ q).2.clients = [] ∧
      ((Hub.broadcast ⟨[(cid, ⟨qd, false⟩)], cap⟩ q).2.broadcast q').1 = ⟨0, 0, 0⟩ ∧
      ((Hub.broadcast ⟨[(cid, ⟨qd, false⟩)], cap⟩ q).2.remove_client cid).1 = false := by
  have h1 : Hub.broadcast ⟨[(cid, ⟨qd, false⟩)], cap⟩ q =
      (⟨0, 0, 1⟩, ⟨[], cap⟩) := by
    simp [Hub.broadcast, sendAll, trySend]
  refine ⟨by rw [h1], by rw [h1], ?_, ?_⟩
  · rw [h1]; simp [Hub.broadcast, sendAll]
  · rw [h1]; simp [Hub.remove_client]

/-! Helper lemmas for the session error counter. -/

theorem handle_quote_fail_eq (fltr : List (List Nat)) (q : StockQuote) (c : Nat)
    (hmem : q.ticker ∈ fltr) :
    handle_quote fltr q false c =
      if BACK_TO_BACK_SEND_ERR_LIMIT ≤ c + 1 then .error () else .ok (c + 1) := by
  simp [handle_quote, hmem]

theorem handle_quote_succ_eq (fltr : List (List Nat)) (q : StockQuote) (c : Nat)
    (hmem : q.ticker ∈ fltr) : handle_quote fltr q true c = .ok 0 := by
  simp [handle_quote, hmem]

theorem processQuotes_replicate_fail (fltr : List (List Nat)) (q : StockQuote)
    (hmem : q.ticker ∈ fltr) :
    ∀ (n c : Nat), c + n < BACK_TO_BACK_SEND_ERR_LIMIT →
      processQuotes fltr (List.replicate n (q, false)) c = .ok (c + n) := by
  intro n
  induction n with
  | zero => intro c _; simp [processQuotes]
  | succ n ih =>
    intro c h
    rw [List.replicate_succ]
    simp only [processQuotes]
    rw [handle_quote_fail_eq fltr q c hmem, if_neg (by omega)]
    show processQuotes fltr (List.replicate n (q, false)) (c + 1) = .ok (c + (n + 1))
    rw [ih (c + 1) (by omega)]
    have heq : c + 1 + n = c + (n + 1) := by omega
    rw [heq]

theorem processQuotes_replicate_fatal (fltr : List (List Nat)) (q : StockQuote)
    (hmem : q.ticker ∈ fltr) :
    ∀ (n c : Nat), BACK_TO_BACK_SEND_ERR_LIMIT ≤ c + n →
      c < BACK_TO_BACK_SEND_ERR_LIMIT →
      processQuotes fltr (List.replicate n (q, false)) c = .error () := by
  intro n
  induction n with
  | zero => intro c h hc; omega
  | succ n ih =>
    intro c h hc
    rw [List.replicate_succ]
    simp only [processQuotes]
    rw [handle_quote_fail_eq fltr q c hmem]
    by_cases hlim : BACK_TO_BACK_SEND_ERR_LIMIT ≤ c + 1
    · rw [if_pos hlim]
    · rw [if_neg hlim]
      show processQuotes fltr (List.replicate n (q, false)) (c + 1) = .error ()
      exact ih (c + 1) (by omega) (by omega)

theorem processQuotes_fail_then_succ (fltr : List (List Nat)) (q : StockQuote)
    (hmem : q.ticker ∈ fltr) :
    ∀ (n c : Nat), c + n < BACK_TO_BACK_SEND_ERR_LIMIT →
      processQuotes fltr (List.replicate n (q, false) ++ [(q, true)]) c = .ok 0 := by
  intro n
  induction n with
  | zero =>
    intro c _
    simp only [List.replicate_zero, List.nil_append, processQuotes]
    rw [handle_quote_succ_eq fltr q c hmem]
  | succ n ih =>
    intro c h
    rw [List.replicate_succ, List.cons_append]
    simp only [processQuotes]
    rw [handle_quote_fail_eq fltr q c hmem, if_neg (by omega)]
    show processQuotes fltr (List.replicate n (q, false) ++ [(q, true)]) (c + 1) = .ok 0
    exact ih (c + 1) (by omega)

/-- Claim C9: in the session's quote processing, a successful send resets
the back-to-back error counter to zero; each send error increments it; the
call propagates the send error exactly when the counter reaches the limit
20 (so any run of fewer than 20 consecutive errors followed by a success is
tolerated while the 20th consecutive error is fatal); and quotes whose
ticker is not in the filter set leave the counter unchanged. -/
theorem handle_quote_error_counter (fltr : List (List Nat)) (q : StockQuote)
    (c n : Nat) (sendOk : Bool) :
    (q.ticker ∈ fltr → handle_quote fltr q true c = .ok 0) ∧
      (q.ticker ∉ fltr → handle_quote fltr q sendOk c = .ok c) ∧
      (q.ticker ∈ fltr → c + 1 < BACK_TO_BACK_SEND_ERR_LIMIT →
        handle_quote fltr q false c = .ok (c + 1)) ∧
      (q.ticker ∈ fltr → BACK_TO_BACK_SEND_ERR_LIMIT ≤ c + 1 →
        handle_quote fltr q false c = .error ()) ∧
      (q.ticker ∈ fltr → n < BACK_TO_BACK_SEND_ERR_LIMIT →
        processQuotes fltr (List.replicate n (q, false) ++ [(q, true)]) 0 = .ok 0) ∧
      (q.ticker ∈ fltr →
        processQuotes fltr (List.replicate BACK_TO_BACK_SEND_ERR_LIMIT (q, false)) 0 =
          .error ()) := by
  refine ⟨?_, ?_, ?_, ?_, ?_, ?_⟩
  · intro hmem; exact handle_quote_succ_eq fltr q c hmem
  · intro hmem; simp [handle_quote, hmem]
  · intro hmem hlt
    rw [handle_quote_fail_eq fltr q c hmem, if_neg (by omega)]
  · intro hmem hge
    rw [handle_quote_fail_eq fltr q c hmem, if_pos hge]
  · intro hmem hlt
    exact processQuotes_fail_then_succ fltr q hmem n 0 (by omega)
  · intro hmem
    exact processQuotes_replicate_fatal fltr q hmem BACK_TO_BACK_SEND_ERR_LIMIT 0
      (by omega) (by decide)

/-- Witness for C9: the counter facts evaluated concretely — a matching
successful send from counter 3 resets to zero, a 19-error run followed by a
success ends at zero, and 20 consecutive failing sends propagate the
error. -/
theorem handle_quote_error_counter_witness :
    handle_quote [[65]] ⟨[65], 1, 1, 1⟩ true 3 = .ok 0 ∧
      processQuotes [[65]] (List.replicate 19 ((⟨[65], 1, 1, 1⟩ : StockQuote), false) ++
        [((⟨[65], 1, 1, 1⟩ : StockQuote), true)]) 0 = .ok 0 ∧
      processQuotes [[65]] (List.replicate 20 ((⟨[65], 1, 1, 1⟩ : StockQuote), false)) 0 =
        .error () :=
  ⟨(handle_quote_error_counter [[65]] ⟨[65], 1, 1, 1⟩ 3 0 true).1 (by decide),
    (handle_quote_error_counter [[65]] ⟨[65], 1, 1, 1⟩ 0 19 true).2.2.2.2.1
      (by decide) (by decide),
    (handle_quote_error_counter [[65]] ⟨[65], 1, 1, 1⟩ 0 0 true).2.2.2.2.2 (by decide)⟩

/-- Counterexample for C1: a liveness entry for the target exists but is
older than the session start (entry at 0 ms, session start at 10000 ms,
now 12000 ms).  The claimed formula `now − max(last_ping[target],
session_start) > PING_TIMEOUT` gives 2000 ms ≤ 5000 ms, hence false, but
`ping_expired` uses the entry itself (age 12000 ms) and returns true. -/
theorem ping_expired_counterexample :
    ping_expired [(⟨[127, 0, 0, 1], 9000⟩, 0)] ⟨[127, 0, 0, 1], 9000⟩ 10000 12000 = true ∧
      ping_expired_claimed [(⟨[127, 0, 0, 1], 9000⟩, 0)] ⟨[127, 0, 0, 1], 9000⟩
        10000 12000 = false := by
  constructor <;> decide

/-- Claim C1, amended: `ping_expired(target, session_start)` returns true
exactly when `now − last_ping[target] > PING_TIMEOUT` if a liveness entry
for the target exists — regardless of how the entry compares with the
session start — and when `now − session_start > PING_TIMEOUT` if no entry
exists.  The session-start grace applies only while the target has no
liveness entry at all. -/
theorem ping_expired_amended (m : LastPingMap) (target : SocketAddr)
    (session_start now : Nat) :
    ping_expired m target session_start now = true ↔
      ((∃ t, lookupPing m target = some t ∧ PING_TIMEOUT < now - t) ∨
        (lookupPing m target = none ∧ PING_TIMEOUT < now - session_start)) := by
  unfold ping_expired
  rcases h : lookupPing m target with _ | t <;> simp [h]

/-- Witness for C1 (amended): a target with a liveness entry aged beyond the
timeout is expired. -/
theorem ping_expired_amended_witness :
    ping_expired [(⟨[127, 0, 0, 1], 9000⟩, 100)] ⟨[127, 0, 0, 1], 9000⟩ 6000 9000 = true :=
  (ping_expired_amended [(⟨[127, 0, 0, 1], 9000⟩, 100)] ⟨[127, 0, 0, 1], 9000⟩
    6000 9000).mpr (Or.inl ⟨100, by decide, by decide⟩)

/-- Claim C2 divergence witness.  First conjunct (the spec scenario S6,
which the code satisfies): with a liveness entry stale by more than
`PING_TIMEOUT` and an empty inbound queue, the session exits on its first
iteration and removes the target's entry.  Second and third conjuncts (the
divergence): on the send-error exit path — a matching quote whose send
fails 20 consecutive times — `run_session` propagates the error through
`?` and returns with the liveness map untouched, so the target's entry is
NOT removed, contradicting cleanup on every exit path. -/
theorem run_session_error_path_keeps_entry :
    run_session ⟨[127, 0, 0, 1], 34567⟩ [] 6000 [(⟨[127, 0, 0, 1], 34567⟩, 0)]
        [⟨false, 6000, [], .timeout⟩] = some (.ok []) ∧
      run_session ⟨[127, 0, 0, 1], 34567⟩ [[65]] 6000 [(⟨[127, 0, 0, 1], 34567⟩, 6000)]
        [⟨false, 7000, List.replicate 20 ((⟨[65], 1, 1, 1⟩ : StockQuote), false), .timeout⟩] =
        some (.err [(⟨[127, 0, 0, 1], 34567⟩, 6000)]) ∧
      lookupPing [(⟨[127, 0, 0, 1], 34567⟩, 6000)] ⟨[127, 0, 0, 1], 34567⟩ = some 6000 := by
  refine ⟨by decide, by decide, by decide⟩

/-- Claim C4 divergence witness: quote-core/src/types.rs declares
`price: f64` and `timestamp_ms: u64`, while `QuoteGenerator::next_quote`
(and the crates' own unit tests and doc examples) require `price: i64` and
`timestamp_ms: u128`; the `volume: u32` field agrees. -/
theorem stockQuote_declared_type_mismatch :
    (stockQuoteDeclaredFields.lookup "price" = some .tyF64 ∧
        stockQuoteGeneratorFields.lookup "price" = some .tyI64 ∧
        RustTy.tyF64 ≠ RustTy.tyI64) ∧
      (stockQuoteDeclaredFields.lookup "timestamp_ms" = some .tyU64 ∧
        stockQuoteGeneratorFields.lookup "timestamp_ms" = some .tyU128 ∧
        RustTy.tyU64 ≠ RustTy.tyU128) ∧
      stockQuoteDeclaredFields.lookup "volume" = stockQuoteGeneratorFields.lookup "volume" := by
  refine ⟨⟨?_, ?_, ?_⟩, ⟨?_, ?_, ?_⟩, ?_⟩ <;> decide

/-! Helper lemmas for ticker normalization. -/

theorem mem_insertSorted (x y : RStr) :
    ∀ l : List RStr, y ∈ insertSorted x l ↔ y = x ∨ y ∈ l := by
  intro l
  induction l with
  | nil => simp [insertSorted]
  | cons z zs ih =>
    simp only [insertSorted]
    split_ifs with h1 h2
    · simp [List.mem_cons]
    · subst h2; simp [List.mem_cons]
    · simp [List.mem_cons, ih]; tauto

theorem sorted_insertSorted (x : RStr) :
    ∀ l : List RStr, l.Sorted (· < ·) → (insertSorted x l).Sorted (· < ·) := by
  intro l
  induction l with
  | nil => intro _; simp [insertSorted]
  | cons z zs ih =>
    intro h
    rw [List.sorted_cons] at h
    obtain ⟨hz, hzs⟩ := h
    simp only [insertSorted]
    split_ifs with h1 h2
    · rw [List.sorted_cons]
      refine ⟨?_, List.sorted_cons.mpr ⟨hz, hzs⟩⟩
      intro b hb
      rcases List.mem_cons.mp hb with rfl | hb'
      · exact h1
      · exact lt_trans h1 (hz b hb')
    · exact List.sorted_cons.mpr ⟨hz, hzs⟩
    · rw [List.sorted_cons]
      refine ⟨?_, ih hzs⟩
      intro b hb
      rcases (mem_insertSorted x b zs).mp hb with rfl | hb'
      · rcases lt_trichotomy b z with hlt | heq | hgt
        · exact absurd hlt h1
        · exact absurd heq h2
        · exact hgt
      · exact hz b hb'

theorem sorted_sortDedup : ∀ l : List RStr, (sortDedup l).Sorted (· < ·) := by
  intro l
  induction l with
  | nil => simp [sortDedup]
  | cons x xs ih => exact sorted_insertSorted x (sortDedup xs) ih

theorem mem_sortDedup (y : RStr) : ∀ l : List RStr, y ∈ sortDedup l ↔ y ∈ l := by
  intro l
  induction l with
  | nil => simp [sortDedup]
  | cons x xs ih =>
    show y ∈ insertSorted x (sortDedup xs) ↔ _
    rw [mem_insertSorted, ih, List.mem_cons]

theorem asciiUpper_not_lower (c : Char) :
    ¬(97 ≤ (asciiUpper c).toNat ∧ (asciiUpper c).toNat ≤ 122) := by
  by_cases h : 97 ≤ c.toNat ∧ c.toNat ≤ 122
  · unfold asciiUpper
    rw [if_pos h]
    obtain ⟨h1, h2⟩ := h
    generalize hg : c.toNat = nn
    rw [hg] at h1 h2
    interval_cases nn <;> decide
  · unfold asciiUpper
    rw [if_neg h]
    exact h

/-- Claim C7: for every input string, `parse_tickers_csv` returns a list
that is sorted in strictly ascending order, contains no duplicates, whose
elements are non-empty and free of lowercase ASCII letters, and whose
members are exactly the ASCII-uppercased trims of the non-empty
comma-separated items of the input. -/
theorem parse_tickers_csv_normalized (raw : RStr) :
    (parse_tickers_csv raw).Sorted (· < ·) ∧
      (parse_tickers_csv raw).Nodup ∧
      (∀ x ∈ parse_tickers_csv raw,
        x ≠ [] ∧ ∀ c ∈ x, ¬(97 ≤ c.toNat ∧ c.toNat ≤ 122)) ∧
      ∀ x, x ∈ parse_tickers_csv raw ↔
        ∃ part ∈ splitOnChar ',' raw, trim part ≠ [] ∧ toAsciiUpper (trim part) = x := by
  have hsorted : (parse_tickers_csv raw).Sorted (· < ·) := sorted_sortDedup _
  have hmem : ∀ x, x ∈ parse_tickers_csv raw ↔
      ∃ part ∈ splitOnChar ',' raw, trim part ≠ [] ∧ toAsciiUpper (trim part) = x := by
    intro x
    rw [parse_tickers_csv, mem_sortDedup, List.mem_filterMap]
    constructor
    · rintro ⟨part, hp, hf⟩
      by_cases ht : trim part = []
      · simp [ht] at hf
      · simp only [ht, if_false] at hf
        simp [ht] at hf
        exact ⟨part, hp, ht, hf⟩
    · rintro ⟨part, hp, ht, hx⟩
      exact ⟨part, hp, by simp [ht, hx]⟩
  refine ⟨hsorted, hsorted.nodup, ?_, hmem⟩
  intro x hx
  obtain ⟨part, _, ht, hup⟩ := (hmem x).mp hx
  subst hup
  constructor
  · intro hnil
    apply ht
    rcases h' : trim part with _ | ⟨a, l⟩
    · rfl
    · rw [h'] at hnil
      simp [toAsciiUpper] at hnil
  · intro ch hch
    obtain ⟨c0, _, rfl⟩ := List.mem_map.mp hch
    exact asciiUpper_not_lower c0

/-- Witness for C7: the normalized output of the repository test input
` aapl, TSLA, ,goog ,AAPL,, tsla ` contains `AAPL`, which is non-empty and
has no lowercase ASCII letter. -/
theorem parse_tickers_csv_normalized_witness :
    str "AAPL" ≠ [] ∧ ∀ c ∈ str "AAPL", ¬(97 ≤ c.toNat ∧ c.toNat ≤ 122) :=
  (parse_tickers_csv_normalized (str " aapl, TSLA, ,goog ,AAPL,, tsla ")).2.2.1
    (str "AAPL") (by decide)

/-! Claim C3 concerns the order in which `parse_command` applies its
checks. -/

theorem splitWhitespace_nil : splitWhitespace ([] : RStr) = [] := rfl

/-- Counterexample for C3: on `STREAM tcp://127.0.0.1:1` — whose second
token does not begin with `udp://` and which has no ticker tokens — the
parser returns `MissingTickers`, not `BadUdpScheme` as the claim states,
because the code checks ticker presence before the scheme. -/
theorem parse_command_order_counterexample :
    parse_command parseSocketAddrV4 (str "STREAM tcp://127.0.0.1:1") ≠
        .error .BadUdpScheme ∧
      parse_command parseSocketAddrV4 (str "STREAM tcp://127.0.0.1:1") =
        .error .MissingTickers := by
  constructor <;> decide

/-- Claim C3, amended: `parse_command` applies its checks in the order
trim/empty, verb, presence of the UDP target token, presence of ticker
tokens (`MissingTickers`), the `udp://` scheme prefix, socket-address
validity, and finally non-emptiness of the normalized ticker list; in
particular a second token that does not begin with `udp://` yields
`BadUdpScheme` only when at least one ticker token follows it, and
`MissingTickers` when none does. -/
theorem parse_command_check_order (addrParse : RStr → Option SocketAddr) (line : RStr) :
    (trim line = [] → parse_command addrParse line = .error .EmptyCommand) ∧
      (∀ cmd parts, splitWhitespace (trim line) = cmd :: parts → cmd ≠ str "STREAM" →
        parse_command addrParse line = .error (.UnknownCommand cmd)) ∧
      (splitWhitespace (trim line) = [str "STREAM"] →
        parse_command addrParse line = .error .MissingUdpTarget) ∧
      (∀ uri rest, splitWhitespace (trim line) = str "STREAM" :: uri :: rest →
        trim (joinSpace rest) = [] →
        parse_command addrParse line = .error .MissingTickers) ∧
      (∀ uri rest, splitWhitespace (trim line) = str "STREAM" :: uri :: rest →
        trim (joinSpace rest) ≠ [] → stripLit (str "udp://") uri = none →
        parse_command addrParse line = .error .BadUdpScheme) ∧
      (∀ uri rest a_str, splitWhitespace (trim line) = str "STREAM" :: uri :: rest →
        trim (joinSpace rest) ≠ [] → stripLit (str "udp://") uri = some a_str →
        addrParse a_str = none →
        parse_command addrParse line = .error (.InvalidUdpAddress a_str)) ∧
      (∀ uri rest a_str tgt, splitWhitespace (trim line) = str "STREAM" :: uri :: rest →
        trim (joinSpace rest) ≠ [] → stripLit (str "udp://") uri = some a_str →
        addrParse a_str = some tgt → parse_tickers_csv (joinSpace rest) = [] →
        parse_command addrParse line = .error .EmptyTickers) ∧
      (∀ uri rest a_str tgt t ts, splitWhitespace (trim line) = str "STREAM" :: uri :: rest →
        trim (joinSpace rest) ≠ [] → stripLit (str "udp://") uri = some a_str →
        addrParse a_str = some tgt → parse_tickers_csv (joinSpace rest) = t :: ts →
        parse_command addrParse line = .ok (.Stream tgt (t :: ts))) := by
  have hne_of_split : ∀ {x : RStr} {xs : List RStr},
      splitWhitespace (trim line) = x :: xs → trim line ≠ [] := by
    intro x xs hsplit he
    rw [he, splitWhitespace_nil] at hsplit
    exact absurd hsplit (by simp)
  refine ⟨?_, ?_, ?_, ?_, ?_, ?_, ?_, ?_⟩
  · intro h
    simp [parse_command, h]
  · intro cmd parts hsplit hcmd
    simp [parse_command, hne_of_split hsplit, hsplit, hcmd]
  · intro hsplit
    simp [parse_command, hne_of_split hsplit, hsplit]
  · intro uri rest hsplit htick
    simp [parse_command, hne_of_split hsplit, hsplit, htick]
  · intro uri rest hsplit htick hscheme
    simp [parse_command, hne_of_split hsplit, hsplit, htick, hscheme]
  · intro uri rest a_str hsplit htick hscheme haddr
    simp [parse_command, hne_of_split hsplit, hsplit, htick, hscheme, haddr]
  · intro uri rest a_str tgt hsplit htick hscheme haddr htickers
    simp [parse_command, hne_of_split hsplit, hsplit, htick, hscheme, haddr, htickers]
  · intro uri rest a_str tgt t ts hsplit htick hscheme haddr htickers
    simp [parse_command, hne_of_split hsplit, hsplit, htick, hscheme, haddr, htickers]

/-- Witness for C3 (amended): a second token with a `tcp://` scheme
followed by a ticker token yields `BadUdpScheme`. -/
theorem parse_command_check_order_witness :
    parse_command parseSocketAddrV4 (str "STREAM tcp://127.0.0.1:1 AAPL") =
      .error .BadUdpScheme :=
  (parse_command_check_order parseSocketAddrV4
      (str "STREAM tcp://127.0.0.1:1 AAPL")).2.2.2.2.1
    (str "tcp://127.0.0.1:1") [str "AAPL"] (by decide) (by decide) (by decide)

end StreamingQuotes
